import Mathlib

/-!
Verification development for the BluBot hand driver
(`hand_with_telemetry.py`): a shallow embedding of the servo
motion-interpolation and gesture-sequencing engine, with theorems about
its trajectory generation, gesture composition and telemetry encoding.

Modelling conventions:
* Python floats are modelled as exact rationals (`ℚ`); every angle the
  program manipulates is produced by field arithmetic on literals, so
  the rational model computes the same closed-form values the spec
  reasons about.
* The hardware side effects (`pwm.set_pwm`, `time.sleep`) and telemetry
  transmission (`show_positions` / MQTT) do not touch the `Joint`/`Hand`
  state and are omitted; only the state evolution is modelled.
* The busy-wait loops (`while not self.update(): pass`) are modelled by
  a fuel-bounded iterator where the fuel is the total number of pending
  queue entries; each non-ready tick pops at least one entry, so this
  fuel is sufficient and the iterated function is proved to reach the
  drained fixed point (`Hand.settled`), which is the state in which the
  Python loop exits.
-/

namespace BluBot

/-- Model of `cubic_ease_in_out` from `hand_with_telemetry.py`:
`4*t*t*t` for `t < 0.5`, else `0.5*f*f*f + 1` with `f = 2*t - 2`. -/
def cubic_ease_in_out (t : ℚ) : ℚ :=
  if t < 1/2 then 4 * t * t * t
  else
    let f := 2 * t - 2
    1/2 * (f * f * f) + 1

/-- One `Joint` of the hand: servo channel, display name, calibrated
bounds `min_pos`/`max_pos`, current `position`, and the deque of pending
interpolated positions (front = next to apply). -/
structure Joint where
  servo_channel : ℕ
  name : String
  min_pos : ℚ
  max_pos : ℚ
  position : ℚ
  intermediate_positions : List ℚ
  deriving DecidableEq, Repr

namespace Joint

/-- Model of `Joint.__init__(ch, name, open_pos=0, closed_pos=180)`: position is
initialised to `0` regardless of the calibration bounds (the call
`set_servo_angle(90)` in the constructor is commented out in the code). -/
def init (ch : ℕ) (name : String) (open_pos : ℚ := 0) (closed_pos : ℚ := 180) : Joint :=
  { servo_channel := ch
  , name := name
  , min_pos := open_pos
  , max_pos := closed_pos
  , position := 0
  , intermediate_positions := [] }

/-- The sequential clamping at the top of `set_servo_angle`:
`if target_angle < self.min_pos: target_angle = self.min_pos` followed by
`if target_angle > self.max_pos: target_angle = self.max_pos`. -/
def clampTarget (j : Joint) (target_angle : ℚ) : ℚ :=
  let t1 := if target_angle < j.min_pos then j.min_pos else target_angle
  if t1 > j.max_pos then j.max_pos else t1

/-- The constant `num_steps = 50` — the number of interpolation steps. -/
def num_steps : ℕ := 50

/-- The loop body of `set_servo_angle`: for `step in range(num_steps)`,
`t = step / (num_steps - 1)`, `eased = cubic_ease_in_out(t)`, append
`(1 - eased) * start_angle + eased * target_angle` (with
`start_angle = self.position`). -/
def interpolation_steps (j : Joint) (target_angle : ℚ) : List ℚ :=
  (List.range num_steps).map (fun (step : ℕ) =>
    let t : ℚ := (step : ℚ) / ((num_steps : ℚ) - 1)
    let eased_step := cubic_ease_in_out t
    (1 - eased_step) * j.position + eased_step * target_angle)

/-- Model of `Joint.set_servo_angle`: clamp the target, then append the eased
interpolation steps to the existing queue (old entries are kept). -/
def set_servo_angle (j : Joint) (target_angle : ℚ) : Joint :=
  { j with intermediate_positions :=
      j.intermediate_positions ++ j.interpolation_steps (j.clampTarget target_angle) }

/-- Model of `Joint.update`: if the queue is non-empty, pop the front value, make
it the current position (the pulse-width command to the servo is a
hardware side effect) and report `false` (not yet complete); otherwise
report `true` (movement complete) without touching the state. -/
def update (j : Joint) : Joint × Bool :=
  match j.intermediate_positions with
  | [] => (j, true)
  | angle :: rest =>
      ({ j with position := angle, intermediate_positions := rest }, false)

/-- Fuel-bounded iteration of `update`, stopping as soon as `update`
reports complete — the body of `while not joint.update(): pass`. -/
def run_updates : ℕ → Joint → Joint
  | 0, j => j
  | n + 1, j => if (j.update).2 then (j.update).1 else run_updates n (j.update).1

/-- The busy-wait `while not self.thumb.update(): pass` in `clear_thumb`:
the queue length bounds the number of non-complete ticks. -/
def drain (j : Joint) : Joint :=
  run_updates j.intermediate_positions.length j

/-- Closed form of a fully drained joint: position becomes the last
queued value (if any) and the queue is empty. -/
def drained (j : Joint) : Joint :=
  { j with position := j.intermediate_positions.getLast?.getD j.position
         , intermediate_positions := [] }

/-- The last target the joint will reach once its queue drains. -/
def finalTarget (j : Joint) : ℚ :=
  j.intermediate_positions.getLast?.getD j.position

/-- Python `int()` truncation toward zero on a rational. -/
def int_trunc (q : ℚ) : ℤ :=
  if q < 0 then ⌈q⌉ else ⌊q⌋

/-- Model of `Joint.get_flexion`:
`int((self.position - self.min_pos) / (self.max_pos - self.min_pos) * 100)`. -/
def get_flexion (j : Joint) : ℤ :=
  int_trunc ((j.position - j.min_pos) / (j.max_pos - j.min_pos) * 100)

end Joint

/-- The `Hand`: six owned joints.  `fingers = [thumb, index, middle,
ring, pinkie]` and `fingers_not_thumb = [index, middle, ring, pinkie]`
are fixed views realised below by enumerating the fields in that order. -/
structure Hand where
  wrist : Joint
  thumb : Joint
  index : Joint
  middle : Joint
  ring : Joint
  pinkie : Joint
  deriving DecidableEq, Repr

namespace Hand

/-- Model of `Hand.__init__` with the hard-coded calibrations. -/
def init : Hand :=
  { wrist := Joint.init 5 "wrist"
  , thumb := Joint.init 4 "t" 10 150
  , index := Joint.init 3 "i" 20 130
  , middle := Joint.init 2 "m" 0 140
  , ring := Joint.init 1 "r" 10 130
  , pinkie := Joint.init 0 "p" 10 120 }

/-- Model of `Hand.update`: run `Joint.update` on every joint in `self.fingers`
(thumb, index, middle, ring, pinkie — the wrist is not in the list) and
return `ready` = every one reported complete.  The telemetry emission
(`show_positions` when not ready) does not touch the state. -/
def update (h : Hand) : Hand × Bool :=
  ({ h with thumb := (h.thumb.update).1
          , index := (h.index.update).1
          , middle := (h.middle.update).1
          , ring := (h.ring.update).1
          , pinkie := (h.pinkie.update).1 },
   (h.thumb.update).2 && (h.index.update).2 && (h.middle.update).2
     && (h.ring.update).2 && (h.pinkie.update).2)

/-- Total number of pending queue entries across the five fingers. -/
def totalPending (h : Hand) : ℕ :=
  h.thumb.intermediate_positions.length + h.index.intermediate_positions.length
    + h.middle.intermediate_positions.length + h.ring.intermediate_positions.length
    + h.pinkie.intermediate_positions.length

/-- Fuel-bounded iteration of `Hand.update`, stopping as soon as it
reports ready — the body of `while not self.update(): pass`. -/
def run_updates : ℕ → Hand → Hand
  | 0, h => h
  | n + 1, h => if (h.update).2 then (h.update).1 else run_updates n (h.update).1

/-- The blocking synchronization barrier `while not self.update(): pass`:
`totalPending` bounds the number of non-ready ticks, so this fuel always
suffices (proved below: the result is `Hand.settled`). -/
def wait_ready (h : Hand) : Hand :=
  run_updates h.totalPending h

/-- Closed form of the barrier's exit state: every finger drained. -/
def settled (h : Hand) : Hand :=
  { h with thumb := h.thumb.drained
         , index := h.index.drained
         , middle := h.middle.drained
         , ring := h.ring.drained
         , pinkie := h.pinkie.drained }

/-- Model of `open_finger(f)`: `f.set_servo_angle(f.min_pos)`. -/
def open_finger (f : Joint) : Joint := f.set_servo_angle f.min_pos

/-- Model of `close_finger(f)`: `f.set_servo_angle(f.max_pos)`. -/
def close_finger (f : Joint) : Joint := f.set_servo_angle f.max_pos

/-- Model of `clear_thumb`: move the thumb to 70° and spin its own update loop
until that move completes. -/
def clear_thumb (h : Hand) : Hand :=
  { h with thumb := (h.thumb.set_servo_angle 70).drain }

/-- Model of `close_thumb`: spin `self.update()` until the whole hand is ready
(the barrier), then enqueue the thumb's close command at 120°. -/
def close_thumb (h : Hand) : Hand :=
  let hb := h.wait_ready
  { hb with thumb := hb.thumb.set_servo_angle 120 }

/-- Model of `make_fist`: clear the thumb, close the four non-thumb fingers, then
`close_thumb` (barrier + thumb close). -/
def make_fist (h : Hand) : Hand :=
  let h1 := h.clear_thumb
  let h2 := { h1 with index := close_finger h1.index
                    , middle := close_finger h1.middle
                    , ring := close_finger h1.ring
                    , pinkie := close_finger h1.pinkie }
  h2.close_thumb

/-- Model of `make_palm`: open every finger in `self.fingers` (thumb included,
wrist not). -/
def make_palm (h : Hand) : Hand :=
  { h with thumb := open_finger h.thumb
         , index := open_finger h.index
         , middle := open_finger h.middle
         , ring := open_finger h.ring
         , pinkie := open_finger h.pinkie }

/-- Model of `make_metal`: clear thumb, open index and pinkie, close middle and
ring, then `close_thumb`. -/
def make_metal (h : Hand) : Hand :=
  let h1 := h.clear_thumb
  let h2 := { h1 with index := open_finger h1.index
                    , middle := close_finger h1.middle
                    , ring := close_finger h1.ring
                    , pinkie := open_finger h1.pinkie }
  h2.close_thumb

/-- Model of `make_number(n)`: clear thumb; for each `f` in `fingers_not_thumb`,
open it if `self.fingers.index(f) <= n` (index finger is at list
position 1, middle 2, ring 3, pinkie 4) else close it; finally open the
thumb if `n >= 5`, else `close_thumb`. -/
def make_number (h : Hand) (n : ℕ) : Hand :=
  let h1 := h.clear_thumb
  let h2 := { h1 with index := if 1 ≤ n then open_finger h1.index else close_finger h1.index
                    , middle := if 2 ≤ n then open_finger h1.middle else close_finger h1.middle
                    , ring := if 3 ≤ n then open_finger h1.ring else close_finger h1.ring
                    , pinkie := if 4 ≤ n then open_finger h1.pinkie else close_finger h1.pinkie }
  if 5 ≤ n then { h2 with thumb := open_finger h2.thumb } else h2.close_thumb

/-- Model of `display_binary(n)`: only for `0 <= n <= 31`; open the palm, spin
`self.update()` until ready, then — with `self.fingers` reversed to
`[pinkie, ring, middle, index, thumb]` and `i` running 4 down to 0 —
open `fingers[i]` when `n & 2**i` is non-zero, else close it.  So the
thumb receives bit 4, index bit 3, middle bit 2, ring bit 1, pinkie
bit 0.  For `n` outside `0..31` nothing at all happens. -/
def display_binary (h : Hand) (n : ℤ) : Hand :=
  if 0 ≤ n ∧ n ≤ 31 then
    let h1 := h.make_palm
    let h2 := h1.wait_ready
    { h2 with thumb := if n.toNat.testBit 4 then open_finger h2.thumb else close_finger h2.thumb
            , index := if n.toNat.testBit 3 then open_finger h2.index else close_finger h2.index
            , middle := if n.toNat.testBit 2 then open_finger h2.middle else close_finger h2.middle
            , ring := if n.toNat.testBit 1 then open_finger h2.ring else close_finger h2.ring
            , pinkie := if n.toNat.testBit 0 then open_finger h2.pinkie else close_finger h2.pinkie }
  else h

/-- The fixed calibrations of `Hand.__init__`, as a predicate on states
(every gesture preserves the calibration fields). -/
def calibrated (h : Hand) : Prop :=
  h.thumb.min_pos = 10 ∧ h.thumb.max_pos = 150 ∧
  h.index.min_pos = 20 ∧ h.index.max_pos = 130 ∧
  h.middle.min_pos = 0 ∧ h.middle.max_pos = 140 ∧
  h.ring.min_pos = 10 ∧ h.ring.max_pos = 130 ∧
  h.pinkie.min_pos = 10 ∧ h.pinkie.max_pos = 120

instance (h : Hand) : Decidable h.calibrated := by
  unfold calibrated; infer_instance

end Hand

/-! ### Operation sequences on a single joint (for the range invariant) -/

/-- A client-visible operation on a single joint: a `set_servo_angle` call
or one `update` tick. -/
inductive JointOp where
  | set (angle : ℚ)
  | tick
  deriving DecidableEq, Repr

/-- Apply one operation to a joint. -/
def Joint.applyOp (j : Joint) : JointOp → Joint
  | .set a => j.set_servo_angle a
  | .tick => (j.update).1

/-- Run a sequence of operations, front first. -/
def Joint.runOps (j : Joint) (ops : List JointOp) : Joint :=
  ops.foldl Joint.applyOp j

/-- The range invariant: the current position and every pending queue
entry lie within `[min_pos, max_pos]`. -/
def Joint.inRange (j : Joint) : Prop :=
  j.min_pos ≤ j.position ∧ j.position ≤ j.max_pos ∧
  ∀ x ∈ j.intermediate_positions, j.min_pos ≤ x ∧ x ≤ j.max_pos

instance (j : Joint) : Decidable j.inRange := by
  unfold Joint.inRange; infer_instance

end BluBot

namespace BluBot

/-! ### Properties of the ease curve -/

theorem cubic_ease_zero : cubic_ease_in_out 0 = 0 := by
  norm_num [cubic_ease_in_out]

theorem cubic_ease_one : cubic_ease_in_out 1 = 1 := by
  norm_num [cubic_ease_in_out]

theorem cubic_ease_mono {s t : ℚ} (h0 : 0 ≤ s) (hst : s ≤ t) (h1 : t ≤ 1) :
    cubic_ease_in_out s ≤ cubic_ease_in_out t := by
  unfold cubic_ease_in_out
  split_ifs with hs ht ht
  · nlinarith [mul_nonneg h0 (le_trans h0 hst), mul_nonneg (le_trans h0 hst) (le_trans h0 hst),
      mul_nonneg h0 h0]
  · nlinarith [mul_nonneg h0 h0, sq_nonneg (2*t - 1), sq_nonneg (2*t - 2)]
  · linarith
  · nlinarith [sq_nonneg (s - t), sq_nonneg (s + t - 2), sq_nonneg (2*s - 2), sq_nonneg (2*t - 2)]

theorem cubic_ease_nonneg {t : ℚ} (h0 : 0 ≤ t) (h1 : t ≤ 1) : 0 ≤ cubic_ease_in_out t := by
  have := cubic_ease_mono (le_refl 0) h0 h1
  rwa [cubic_ease_zero] at this

theorem cubic_ease_le_one {t : ℚ} (h0 : 0 ≤ t) (h1 : t ≤ 1) : cubic_ease_in_out t ≤ 1 := by
  have := cubic_ease_mono h0 h1 (le_refl 1)
  rwa [cubic_ease_one] at this

/-! ### Properties of the interpolation-step generator -/

namespace Joint

theorem interpolation_steps_length (j : Joint) (c : ℚ) :
    (j.interpolation_steps c).length = 50 := by
  simp [Joint.interpolation_steps, Joint.num_steps]

theorem num_steps_cast_sub_one : ((Joint.num_steps : ℚ) - 1) = 49 := by
  norm_num [Joint.num_steps]

theorem interpolation_steps_ne_nil (j : Joint) (c : ℚ) :
    j.interpolation_steps c ≠ [] := by
  intro hnil
  have := interpolation_steps_length j c
  rw [hnil] at this
  simp at this

theorem interpolation_steps_getLast? (j : Joint) (c : ℚ) :
    (j.interpolation_steps c).getLast? = some c := by
  unfold Joint.interpolation_steps
  rw [List.getLast?_map]
  have h49 : (List.range Joint.num_steps).getLast? = some 49 := by
    simp [Joint.num_steps, List.range_succ]
  rw [h49]
  simp only [Option.map_some']
  have ht : ((49 : ℕ) : ℚ) / ((Joint.num_steps : ℚ) - 1) = 1 := by
    rw [num_steps_cast_sub_one]; norm_num
  rw [ht, cubic_ease_one]
  norm_num

theorem interpolation_steps_getElem? (j : Joint) (c : ℚ) {k : ℕ} (hk : k < 50) :
    (j.interpolation_steps c)[k]? =
      some ((1 - cubic_ease_in_out ((k : ℚ) / 49)) * j.position
            + cubic_ease_in_out ((k : ℚ) / 49) * c) := by
  unfold Joint.interpolation_steps
  rw [List.getElem?_map, List.getElem?_range (by simpa [Joint.num_steps] using hk)]
  simp only [Option.map_some']
  rw [num_steps_cast_sub_one]

theorem interpolation_steps_mem_bounds {j : Joint} {c lo hi : ℚ}
    (hp : lo ≤ j.position) (hp' : j.position ≤ hi) (hc : lo ≤ c) (hc' : c ≤ hi) :
    ∀ x ∈ j.interpolation_steps c, lo ≤ x ∧ x ≤ hi := by
  intro x hx
  unfold Joint.interpolation_steps at hx
  simp only [List.mem_map, List.mem_range] at hx
  obtain ⟨k, hk, rfl⟩ := hx
  have hk' : (k : ℚ) ≤ 49 := by
    have h49 : k ≤ 49 := Nat.lt_succ_iff.mp (by simpa [Joint.num_steps] using hk)
    exact_mod_cast h49
  have ht0 : 0 ≤ (k : ℚ) / ((Joint.num_steps : ℚ) - 1) := by
    rw [num_steps_cast_sub_one]; positivity
  have ht1 : (k : ℚ) / ((Joint.num_steps : ℚ) - 1) ≤ 1 := by
    rw [num_steps_cast_sub_one, div_le_one (by norm_num)]
    exact hk'
  have he0 := cubic_ease_nonneg ht0 ht1
  have he1 := cubic_ease_le_one ht0 ht1
  constructor <;> nlinarith

theorem clampTarget_mem {j : Joint} (hmm : j.min_pos ≤ j.max_pos) (a : ℚ) :
    j.min_pos ≤ j.clampTarget a ∧ j.clampTarget a ≤ j.max_pos := by
  unfold Joint.clampTarget
  dsimp only
  split_ifs <;> constructor <;> linarith

theorem clampTarget_of_lt {j : Joint} {a : ℚ} (hmm : j.min_pos ≤ j.max_pos)
    (ha : a < j.min_pos) : j.clampTarget a = j.min_pos := by
  unfold Joint.clampTarget
  dsimp only
  split_ifs <;> first | rfl | linarith

theorem clampTarget_of_gt {j : Joint} {a : ℚ} (hmm : j.min_pos ≤ j.max_pos)
    (ha : j.max_pos < a) : j.clampTarget a = j.max_pos := by
  unfold Joint.clampTarget
  dsimp only
  split_ifs <;> first | rfl | linarith

theorem clampTarget_of_mem {j : Joint} {a : ℚ} (h1 : j.min_pos ≤ a) (h2 : a ≤ j.max_pos) :
    j.clampTarget a = a := by
  unfold Joint.clampTarget
  dsimp only
  split_ifs <;> first | rfl | linarith

theorem set_servo_angle_queue (j : Joint) (a : ℚ) :
    (j.set_servo_angle a).intermediate_positions
      = j.intermediate_positions ++ j.interpolation_steps (j.clampTarget a) := rfl

theorem set_servo_angle_getLast? (j : Joint) (a : ℚ) :
    (j.set_servo_angle a).intermediate_positions.getLast? = some (j.clampTarget a) := by
  rw [set_servo_angle_queue,
    List.getLast?_append_of_ne_nil _ (interpolation_steps_ne_nil j (j.clampTarget a)),
    interpolation_steps_getLast?]

theorem set_servo_angle_finalTarget (j : Joint) (a : ℚ) :
    (j.set_servo_angle a).finalTarget = j.clampTarget a := by
  rw [Joint.finalTarget, set_servo_angle_getLast?]
  rfl

end Joint

end BluBot

namespace BluBot

namespace Joint

/-! ### Properties of `Joint.update` and the drain loops -/

theorem update_complete_iff (j : Joint) :
    (j.update).2 = true ↔ j.intermediate_positions = [] := by
  cases hq : j.intermediate_positions <;> simp [Joint.update, hq]

theorem update_fst_of_empty {j : Joint} (h : j.intermediate_positions = []) :
    (j.update).1 = j := by
  simp [Joint.update, h]

theorem update_length (j : Joint) :
    ((j.update).1).intermediate_positions.length
      = j.intermediate_positions.length - 1 := by
  cases hq : j.intermediate_positions <;> simp [Joint.update, hq]

theorem drained_of_empty {j : Joint} (h : j.intermediate_positions = []) :
    j.drained = j := by
  cases j
  simp_all [Joint.drained]

theorem drained_update (j : Joint) : ((j.update).1).drained = j.drained := by
  cases j with
  | mk ch name lo hi pos q =>
    rcases q with _ | ⟨a, _ | ⟨b, l⟩⟩
    · simp [Joint.update, Joint.drained]
    · simp [Joint.update, Joint.drained]
    · simp [Joint.update, Joint.drained,
        List.getLast?_eq_getLast _ (List.cons_ne_nil b l)]

theorem run_updates_eq_drained :
    ∀ (n : ℕ) (j : Joint), j.intermediate_positions.length ≤ n →
      Joint.run_updates n j = j.drained := by
  intro n
  induction n with
  | zero =>
    intro j hle
    have hq : j.intermediate_positions = [] :=
      List.eq_nil_of_length_eq_zero (Nat.le_zero.mp hle)
    rw [Joint.run_updates, drained_of_empty hq]
  | succ n ih =>
    intro j hle
    rw [Joint.run_updates]
    by_cases hc : (j.update).2 = true
    · rw [if_pos hc]
      have hq := (update_complete_iff j).mp hc
      rw [update_fst_of_empty hq, drained_of_empty hq]
    · rw [if_neg (by simpa using hc), ← drained_update]
      refine ih _ ?_
      have := update_length j
      have hne : j.intermediate_positions ≠ [] := by
        intro hq
        exact hc ((update_complete_iff j).mpr hq)
      have hpos : 0 < j.intermediate_positions.length :=
        List.length_pos.mpr hne
      omega

theorem drain_eq_drained (j : Joint) : j.drain = j.drained :=
  run_updates_eq_drained _ _ le_rfl

theorem set_servo_angle_min_pos (j : Joint) (a : ℚ) :
    (j.set_servo_angle a).min_pos = j.min_pos := rfl

theorem set_servo_angle_max_pos (j : Joint) (a : ℚ) :
    (j.set_servo_angle a).max_pos = j.max_pos := rfl

theorem set_servo_angle_position (j : Joint) (a : ℚ) :
    (j.set_servo_angle a).position = j.position := rfl

theorem drained_finalTarget (j : Joint) : j.drained.position = j.finalTarget := rfl

theorem drained_queue (j : Joint) : j.drained.intermediate_positions = [] := rfl

theorem finalTarget_of_empty {j : Joint} (h : j.intermediate_positions = []) :
    j.finalTarget = j.position := by
  rw [Joint.finalTarget, h]
  rfl

end Joint

namespace Hand

/-! ### Properties of `Hand.update` and the synchronization barrier -/

theorem update_ready_iff (h : Hand) :
    (h.update).2 = true ↔
      (h.thumb.intermediate_positions = [] ∧ h.index.intermediate_positions = [] ∧
       h.middle.intermediate_positions = [] ∧ h.ring.intermediate_positions = [] ∧
       h.pinkie.intermediate_positions = []) := by
  simp [Hand.update, Bool.and_eq_true, Joint.update_complete_iff, and_assoc]

theorem update_wrist (h : Hand) : (h.update).1.wrist = h.wrist := rfl

theorem update_fst_of_ready {h : Hand} (hr : (h.update).2 = true) :
    (h.update).1 = h := by
  obtain ⟨h1, h2, h3, h4, h5⟩ := (update_ready_iff h).mp hr
  cases h
  simp_all [Hand.update, Joint.update_fst_of_empty]

theorem totalPending_update_lt {h : Hand} (hr : (h.update).2 = false) :
    (h.update).1.totalPending < h.totalPending := by
  have key : (h.update).1.totalPending
      = (h.thumb.intermediate_positions.length - 1)
        + (h.index.intermediate_positions.length - 1)
        + (h.middle.intermediate_positions.length - 1)
        + (h.ring.intermediate_positions.length - 1)
        + (h.pinkie.intermediate_positions.length - 1) := by
    simp [Hand.totalPending, Hand.update, Joint.update_length]
  by_contra hge
  push_neg at hge
  rw [key] at hge
  unfold Hand.totalPending at hge
  have hz : h.thumb.intermediate_positions.length = 0 ∧
      h.index.intermediate_positions.length = 0 ∧
      h.middle.intermediate_positions.length = 0 ∧
      h.ring.intermediate_positions.length = 0 ∧
      h.pinkie.intermediate_positions.length = 0 := by omega
  have hready : (h.update).2 = true := by
    rw [update_ready_iff]
    exact ⟨List.eq_nil_of_length_eq_zero hz.1, List.eq_nil_of_length_eq_zero hz.2.1,
      List.eq_nil_of_length_eq_zero hz.2.2.1, List.eq_nil_of_length_eq_zero hz.2.2.2.1,
      List.eq_nil_of_length_eq_zero hz.2.2.2.2⟩
  rw [hready] at hr
  simp at hr

theorem settled_of_ready {h : Hand} (hr : (h.update).2 = true) : h.settled = h := by
  obtain ⟨h1, h2, h3, h4, h5⟩ := (update_ready_iff h).mp hr
  cases h
  simp_all [Hand.settled, Joint.drained_of_empty]

theorem settled_update (h : Hand) : ((h.update).1).settled = h.settled := by
  cases h
  simp [Hand.settled, Hand.update, Joint.drained_update]

theorem run_updates_eq_settled :
    ∀ (n : ℕ) (h : Hand), h.totalPending ≤ n → Hand.run_updates n h = h.settled := by
  intro n
  induction n with
  | zero =>
    intro h hle
    rw [Hand.run_updates]
    have hr : (h.update).2 = true := by
      rw [update_ready_iff]
      unfold Hand.totalPending at hle
      refine ⟨?_, ?_, ?_, ?_, ?_⟩ <;>
        exact List.eq_nil_of_length_eq_zero (by omega)
    exact (settled_of_ready hr).symm
  | succ n ih =>
    intro h hle
    rw [Hand.run_updates]
    by_cases hr : (h.update).2 = true
    · rw [if_pos hr, update_fst_of_ready hr, settled_of_ready hr]
    · rw [if_neg (by simpa using hr), ih _ ?_, settled_update]
      have := totalPending_update_lt (Bool.not_eq_true _ ▸ hr)
      omega

theorem wait_ready_eq_settled (h : Hand) : h.wait_ready = h.settled :=
  run_updates_eq_settled _ _ le_rfl

end Hand

end BluBot

namespace BluBot

namespace Joint

theorem inRange_set_servo_angle {j : Joint} (hj : j.inRange) (a : ℚ) :
    (j.set_servo_angle a).inRange := by
  obtain ⟨h1, h2, h3⟩ := hj
  have hmm : j.min_pos ≤ j.max_pos := le_trans h1 h2
  have hc := clampTarget_mem hmm a
  refine ⟨h1, h2, ?_⟩
  intro x hx
  rw [set_servo_angle_queue] at hx
  rcases List.mem_append.mp hx with hx | hx
  · exact h3 x hx
  · exact interpolation_steps_mem_bounds h1 h2 hc.1 hc.2 x hx

theorem inRange_update {j : Joint} (hj : j.inRange) : ((j.update).1).inRange := by
  obtain ⟨h1, h2, h3⟩ := hj
  cases hq : j.intermediate_positions with
  | nil =>
    rw [update_fst_of_empty hq]
    exact ⟨h1, h2, h3⟩
  | cons a rest =>
    have hu : (j.update).1 = { j with position := a, intermediate_positions := rest } := by
      simp [Joint.update, hq]
    rw [hu]
    have ha := h3 a (by rw [hq]; exact List.mem_cons_self a rest)
    exact ⟨ha.1, ha.2, fun x hx => h3 x (by rw [hq]; exact List.mem_cons_of_mem a hx)⟩

theorem inRange_applyOp {j : Joint} (hj : j.inRange) (op : JointOp) :
    (j.applyOp op).inRange := by
  cases op with
  | set a => exact inRange_set_servo_angle hj a
  | tick => exact inRange_update hj

theorem inRange_runOps {j : Joint} (hj : j.inRange) (ops : List JointOp) :
    (j.runOps ops).inRange := by
  induction ops generalizing j with
  | nil => exact hj
  | cons op rest ih =>
    simp only [Joint.runOps, List.foldl_cons] at *
    exact ih (inRange_applyOp hj op)

/-! ### Final-target bookkeeping through gestures -/

theorem drained_min_pos (j : Joint) : j.drained.min_pos = j.min_pos := rfl

theorem drained_max_pos (j : Joint) : j.drained.max_pos = j.max_pos := rfl

theorem finalTarget_drained (j : Joint) : j.drained.finalTarget = j.drained.position := rfl

end Joint

namespace Hand

theorem open_finger_finalTarget {j : Joint} (hmm : j.min_pos ≤ j.max_pos) :
    (open_finger j).finalTarget = j.min_pos := by
  rw [Hand.open_finger, Joint.set_servo_angle_finalTarget,
    Joint.clampTarget_of_mem le_rfl hmm]

theorem close_finger_finalTarget {j : Joint} (hmm : j.min_pos ≤ j.max_pos) :
    (close_finger j).finalTarget = j.max_pos := by
  rw [Hand.close_finger, Joint.set_servo_angle_finalTarget,
    Joint.clampTarget_of_mem hmm le_rfl]

theorem clear_thumb_eq (h : Hand) :
    h.clear_thumb = { h with thumb := (h.thumb.set_servo_angle 70).drained } := by
  simp [Hand.clear_thumb, Joint.drain_eq_drained]

end Hand

end BluBot

namespace BluBot

/-! ### Claim C1 -/

/-- C1 counterexample: a `Hand` state whose wrist has a non-empty pending
queue but whose five fingers are idle.  `Hand.update` reports ready
(`true`) even though the wrist's queue is non-empty, and leaves the wrist
untouched — so `update` neither calls `Joint.update` on all six joints
nor ties readiness to all six queues: the wrist is not in `self.fingers`. -/
theorem hand_update_ignores_wrist_cex :
    (({ Hand.init with wrist := Hand.init.wrist.set_servo_angle 90 } : Hand).update).2 = true ∧
    ({ Hand.init with wrist := Hand.init.wrist.set_servo_angle 90 } : Hand).wrist.intermediate_positions ≠ [] ∧
    (({ Hand.init with wrist := Hand.init.wrist.set_servo_angle 90 } : Hand).update).1.wrist
      = ({ Hand.init with wrist := Hand.init.wrist.set_servo_angle 90 } : Hand).wrist := by
  refine ⟨rfl, ?_, rfl⟩
  show (Hand.init.wrist.set_servo_angle 90).intermediate_positions ≠ []
  rw [Joint.set_servo_angle_queue]
  intro hnil
  exact Joint.interpolation_steps_ne_nil _ _ (List.append_eq_nil.mp hnil).2

/-- C1 (amended): `Hand.update` calls `Joint.update` on the five finger
joints (thumb, index, middle, ring, pinkie) only — the wrist is not in
`self.fingers` and is left untouched — and the readiness result is true
iff every one of the five fingers' pending queues is empty (the wrist's
queue is ignored). -/
theorem hand_update_five_fingers (h : Hand) :
    (h.update).1.wrist = h.wrist ∧
    (h.update).1.thumb = (h.thumb.update).1 ∧
    (h.update).1.index = (h.index.update).1 ∧
    (h.update).1.middle = (h.middle.update).1 ∧
    (h.update).1.ring = (h.ring.update).1 ∧
    (h.update).1.pinkie = (h.pinkie.update).1 ∧
    ((h.update).2 = true ↔
      (h.thumb.intermediate_positions = [] ∧ h.index.intermediate_positions = [] ∧
       h.middle.intermediate_positions = [] ∧ h.ring.intermediate_positions = [] ∧
       h.pinkie.intermediate_positions = [])) :=
  ⟨rfl, rfl, rfl, rfl, rfl, rfl, Hand.update_ready_iff h⟩

/-! ### Claim C2 -/

/-- C2: for every joint and target angle, `set_servo_angle` appends
exactly 50 interpolation steps to the existing queue (the old entries are
kept as a prefix), the `k`-th appended step interpolates between the
position at call time and the clamped target with the cubic ease-in-out
curve at `t = k/(50-1)`, the ease curve satisfies `ease 0 = 0`,
`ease 1 = 1` and is non-decreasing on `[0, 1]`, and the final appended
queue value equals the clamped target exactly. -/
theorem set_servo_angle_spec (j : Joint) (a : ℚ) :
    cubic_ease_in_out 0 = 0 ∧
    cubic_ease_in_out 1 = 1 ∧
    (∀ s t : ℚ, 0 ≤ s → s ≤ t → t ≤ 1 → cubic_ease_in_out s ≤ cubic_ease_in_out t) ∧
    (j.set_servo_angle a).intermediate_positions
      = j.intermediate_positions ++ j.interpolation_steps (j.clampTarget a) ∧
    (j.interpolation_steps (j.clampTarget a)).length = 50 ∧
    (∀ k : ℕ, k < 50 →
      (j.interpolation_steps (j.clampTarget a))[k]?
        = some ((1 - cubic_ease_in_out ((k : ℚ) / 49)) * j.position
                + cubic_ease_in_out ((k : ℚ) / 49) * j.clampTarget a)) ∧
    (j.set_servo_angle a).intermediate_positions.getLast? = some (j.clampTarget a) :=
  ⟨cubic_ease_zero, cubic_ease_one,
   fun _ _ h0 hst h1 => cubic_ease_mono h0 hst h1,
   Joint.set_servo_angle_queue j a,
   Joint.interpolation_steps_length j _,
   fun _ hk => Joint.interpolation_steps_getElem? j _ hk,
   Joint.set_servo_angle_getLast? j a⟩

/-- Witness for C2 at a concrete input: the thumb joint of the freshly
constructed hand, commanded to 200° (clamped to the 150° bound). -/
theorem set_servo_angle_spec_witness :
    (Hand.init.thumb.set_servo_angle 200).intermediate_positions.getLast?
      = some (Hand.init.thumb.clampTarget 200) ∧
    Hand.init.thumb.clampTarget 200 = 150 ∧
    cubic_ease_in_out 0 ≤ cubic_ease_in_out 1 :=
  ⟨(set_servo_angle_spec Hand.init.thumb 200).2.2.2.2.2.2,
   Joint.clampTarget_of_gt (by decide) (by decide),
   (set_servo_angle_spec Hand.init.thumb 200).2.2.1 0 1
     (by decide) (by decide) (by decide)⟩

/-! ### Claim C3 -/

/-- Popping the head of a non-empty queue makes it the position. -/
theorem joint_update_position_cons {j : Joint} {a : ℚ} {rest : List ℚ}
    (hq : j.intermediate_positions = a :: rest) : ((j.update).1).position = a := by
  simp [Joint.update, hq]

/-- The first applied step after a `set_servo_angle` on an idle joint is
exactly the start position: step 0 has `t = 0`, `ease 0 = 0`, so the
first queued value is `(1 - 0) * start + 0 * target = start`. -/
theorem first_applied_step {j : Joint} (hq : j.intermediate_positions = []) (a : ℚ) :
    (((j.set_servo_angle a).update).1).position = j.position ∧
    ((j.set_servo_angle a).update).2 = false := by
  have hqueue : (j.set_servo_angle a).intermediate_positions
      = j.interpolation_steps (j.clampTarget a) := by
    rw [Joint.set_servo_angle_queue, hq, List.nil_append]
  rcases hsteps : j.interpolation_steps (j.clampTarget a) with _ | ⟨x, rest⟩
  · exact absurd hsteps (Joint.interpolation_steps_ne_nil j _)
  · have h0 := Joint.interpolation_steps_getElem? j (j.clampTarget a) (k := 0) (by norm_num)
    rw [hsteps] at h0
    simp only [List.getElem?_cons_zero, Option.some.injEq, Nat.cast_zero] at h0
    constructor
    · have hpop := joint_update_position_cons (j := j.set_servo_angle a)
        (by rw [hqueue, hsteps])
      rw [hpop, h0, zero_div, cubic_ease_zero]
      ring
    · have hne : (j.set_servo_angle a).intermediate_positions ≠ [] := by
        rw [hqueue, hsteps]
        exact List.cons_ne_nil x rest
      rcases hb : ((j.set_servo_angle a).update).2 with _ | _
      · rfl
      · exact absurd ((Joint.update_complete_iff _).mp hb) hne

/-- C3 counterexample: the thumb is constructed with `position = 0` but
`min_pos = 10`; after `set_servo_angle(150)` the first applied step (an
`update` that pops a queued value) leaves `position = 0`, strictly below
`min_pos` — the invariant fails right after construction. -/
theorem joint_position_out_of_bounds_cex :
    ((Hand.init.thumb.set_servo_angle 150).update).2 = false ∧
    (((Hand.init.thumb.set_servo_angle 150).update).1).position = 0 ∧
    (((Hand.init.thumb.set_servo_angle 150).update).1).min_pos = 10 ∧
    ¬ ((((Hand.init.thumb.set_servo_angle 150).update).1).min_pos
        ≤ (((Hand.init.thumb.set_servo_angle 150).update).1).position) := by
  have hf := first_applied_step (j := Hand.init.thumb) rfl 150
  have hp : (((Hand.init.thumb.set_servo_angle 150).update).1).position = 0 := by
    rw [hf.1]; rfl
  refine ⟨hf.2, hp, rfl, ?_⟩
  rw [hp]
  show ¬ ((10 : ℚ) ≤ 0)
  norm_num

/-- C3 (amended): whenever a joint's state satisfies the range invariant
(position and all queued values within `[min_pos, max_pos]`) — which the
constructor only provides when `min_pos ≤ 0 ≤ max_pos`, since it sets
`position = 0` regardless of the calibration bounds — every sequence of
`set_servo_angle` and `update` calls preserves it, so the position stays
within `[min_pos, max_pos]` after any applied step. -/
theorem joint_runOps_inRange (j : Joint) (hj : j.inRange) (ops : List JointOp) :
    (j.runOps ops).inRange :=
  Joint.inRange_runOps hj ops

/-- Witness for C3 (amended): the middle-finger joint (whose bounds do
contain the constructor's position 0), commanded to 140° then ticked. -/
theorem joint_runOps_inRange_witness :
    (Joint.init 2 "m" 0 140).inRange ∧
    ((Joint.init 2 "m" 0 140).runOps [JointOp.set 140, JointOp.tick]).inRange :=
  ⟨by decide, joint_runOps_inRange _ (by decide) _⟩

/-! ### Claim C6 -/

/-- C6: for a target angle outside `[min_pos, max_pos]` (and a position
within bounds at call time), `set_servo_angle` silently clamps: the
clamped target is the nearest calibration bound, every generated queue
value stays within `[min_pos, max_pos]` (never beyond the bound), the
final queued value equals that bound exactly, and the call behaves
exactly as a call with the already-clamped in-range target — a total
function, with no rejection or error path. -/
theorem set_servo_angle_out_of_range_clamps (j : Joint) (a : ℚ)
    (hp : j.min_pos ≤ j.position) (hp' : j.position ≤ j.max_pos)
    (ha : a < j.min_pos ∨ j.max_pos < a) :
    j.clampTarget a = (if a < j.min_pos then j.min_pos else j.max_pos) ∧
    (∀ x ∈ j.interpolation_steps (j.clampTarget a),
        j.min_pos ≤ x ∧ x ≤ j.max_pos) ∧
    (j.set_servo_angle a).intermediate_positions.getLast?
      = some (if a < j.min_pos then j.min_pos else j.max_pos) ∧
    j.set_servo_angle a = j.set_servo_angle (j.clampTarget a) := by
  have hmm := hp.trans hp'
  have hcl : j.clampTarget a = if a < j.min_pos then j.min_pos else j.max_pos := by
    rcases ha with ha | ha
    · rw [if_pos ha, Joint.clampTarget_of_lt hmm ha]
    · rw [if_neg (by linarith), Joint.clampTarget_of_gt hmm ha]
  have hc := Joint.clampTarget_mem hmm a
  refine ⟨hcl, Joint.interpolation_steps_mem_bounds hp hp' hc.1 hc.2, ?_, ?_⟩
  · rw [Joint.set_servo_angle_getLast?, hcl]
  · unfold Joint.set_servo_angle
    rw [Joint.clampTarget_of_mem hc.1 hc.2]

/-- Witness for C6 at a concrete input: the middle-finger joint
(position 0 within `[0, 140]`), commanded to the out-of-range 200°. -/
theorem set_servo_angle_out_of_range_clamps_witness :
    Hand.init.middle.max_pos < 200 ∧
    (Hand.init.middle.set_servo_angle 200).intermediate_positions.getLast?
      = some (if (200 : ℚ) < Hand.init.middle.min_pos then Hand.init.middle.min_pos
              else Hand.init.middle.max_pos) :=
  ⟨by decide,
   (set_servo_angle_out_of_range_clamps Hand.init.middle 200 (by decide) (by decide)
      (Or.inr (by decide))).2.2.1⟩

/-! ### Claim C9 -/

/-- C9 (code bug): for a result `n` outside `0..31`, `display_binary(n)`
does nothing at all — the range guard has no else branch, so the hand
state is completely unchanged and no closed-fist fallback is displayed,
contradicting the main loop's own comment ("shows that number as binary
if it is 0 - 31. Or a fist, otherwise"). -/
theorem display_binary_out_of_range_noop (h : Hand) (n : ℤ)
    (hn : n < 0 ∨ 31 < n) : h.display_binary n = h := by
  unfold Hand.display_binary
  rw [if_neg]
  rintro ⟨h1, h2⟩
  rcases hn with hn | hn <;> omega

/-- Witness for C9 at the concrete failing input 32 (e.g. the arithmetic
expression `31+1`). -/
theorem display_binary_out_of_range_noop_witness :
    ((31 : ℤ) < 32) ∧ Hand.init.display_binary 32 = Hand.init :=
  ⟨by decide, display_binary_out_of_range_noop Hand.init 32 (Or.inr (by decide))⟩

end BluBot

namespace BluBot

/-! ### Claim C8 -/

/-- Python `int()` truncation is monotone. -/
theorem int_trunc_mono {a b : ℚ} (h : a ≤ b) : Joint.int_trunc a ≤ Joint.int_trunc b := by
  unfold Joint.int_trunc
  split_ifs with ha hb hb
  · exact Int.ceil_mono h
  · have h1 : ⌈a⌉ ≤ 0 := by
      have := Int.ceil_le.mpr (show a ≤ ((0 : ℤ) : ℚ) by exact_mod_cast ha.le)
      simpa using this
    have h2 : (0 : ℤ) ≤ ⌊b⌋ := Int.floor_nonneg.mpr (not_lt.mp hb)
    omega
  · exact absurd (lt_of_le_of_lt h hb) (not_lt.mpr (not_lt.mp ha))
  · exact Int.floor_mono h

/-- C8 counterexample: `get_flexion` truncates with Python `int()`, it
does not round — for the middle-finger calibration `[0, 140]` at
position 1 it returns `int(5/7) = 0` while the claimed formula
`round(100 * (position - min_pos) / (max_pos - min_pos))` gives 1 — and
the value is not always within `[0, 100]`: the freshly constructed thumb
(position 0, bounds `[10, 150]`) yields `int(-50/7) = -7`. -/
theorem get_flexion_truncates_cex :
    (Joint.mk 2 "m" 0 140 1 []).get_flexion = 0 ∧
    round ((100 : ℚ) * ((Joint.mk 2 "m" 0 140 1 []).position - (Joint.mk 2 "m" 0 140 1 []).min_pos)
        / ((Joint.mk 2 "m" 0 140 1 []).max_pos - (Joint.mk 2 "m" 0 140 1 []).min_pos)) = 1 ∧
    ((0 : ℤ) ≠ 1) ∧
    Hand.init.thumb.get_flexion = -7 ∧ ¬ ((0 : ℤ) ≤ -7) := by
  refine ⟨?_, ?_, by decide, ?_, by decide⟩
  · show Joint.int_trunc ((1 - 0) / (140 - 0) * 100) = 0
    rw [Joint.int_trunc, if_neg (by norm_num)]
    norm_num
  · show round ((100 : ℚ) * (1 - 0) / (140 - 0)) = 1
    rw [round_eq]
    norm_num
  · show Joint.int_trunc ((0 - 10) / (150 - 10) * 100) = -7
    rw [Joint.int_trunc, if_pos (by norm_num)]
    rw [show ((0 : ℚ) - 10) / (150 - 10) * 100 = -50/7 by norm_num]
    rw [Int.ceil_eq_iff]
    constructor <;> norm_num

/-- C8 (amended): `get_flexion` returns the Python `int()` truncation of
`(position - min_pos) / (max_pos - min_pos) * 100` (the floor, for
non-negative ratios): it is 0 at `position = min_pos`, 100 at
`position = max_pos`, monotone in the position, and — whenever the
position lies within the calibration bounds — equal to the floor of the
ratio and within `[0, 100]`. -/
theorem get_flexion_spec (j : Joint) (hmm : j.min_pos < j.max_pos) :
    ({ j with position := j.min_pos } : Joint).get_flexion = 0 ∧
    ({ j with position := j.max_pos } : Joint).get_flexion = 100 ∧
    (∀ p q : ℚ, p ≤ q →
      ({ j with position := p } : Joint).get_flexion
        ≤ ({ j with position := q } : Joint).get_flexion) ∧
    (j.min_pos ≤ j.position → j.position ≤ j.max_pos →
      (0 ≤ j.get_flexion ∧ j.get_flexion ≤ 100 ∧
       j.get_flexion = ⌊(j.position - j.min_pos) / (j.max_pos - j.min_pos) * 100⌋)) := by
  have hΔ : (0 : ℚ) < j.max_pos - j.min_pos := sub_pos.mpr hmm
  refine ⟨?_, ?_, ?_, ?_⟩
  · show Joint.int_trunc ((j.min_pos - j.min_pos) / (j.max_pos - j.min_pos) * 100) = 0
    rw [sub_self, zero_div, zero_mul, Joint.int_trunc, if_neg (lt_irrefl 0)]
    exact Int.floor_zero
  · show Joint.int_trunc ((j.max_pos - j.min_pos) / (j.max_pos - j.min_pos) * 100) = 100
    rw [div_self (ne_of_gt hΔ), one_mul, Joint.int_trunc, if_neg (by norm_num)]
    norm_num
  · intro p q hpq
    show Joint.int_trunc ((p - j.min_pos) / (j.max_pos - j.min_pos) * 100)
        ≤ Joint.int_trunc ((q - j.min_pos) / (j.max_pos - j.min_pos) * 100)
    apply int_trunc_mono
    have h1 : (p - j.min_pos) / (j.max_pos - j.min_pos)
        ≤ (q - j.min_pos) / (j.max_pos - j.min_pos) :=
      (div_le_div_iff_of_pos_right hΔ).mpr (by linarith)
    nlinarith
  · intro hp hp'
    have h0 : (0 : ℚ) ≤ (j.position - j.min_pos) / (j.max_pos - j.min_pos) :=
      div_nonneg (by linarith) hΔ.le
    have h0' : (0 : ℚ) ≤ (j.position - j.min_pos) / (j.max_pos - j.min_pos) * 100 :=
      mul_nonneg h0 (by norm_num)
    have h1 : (j.position - j.min_pos) / (j.max_pos - j.min_pos) ≤ 1 :=
      (div_le_one hΔ).mpr (by linarith)
    have h100 : (j.position - j.min_pos) / (j.max_pos - j.min_pos) * 100 ≤ 100 := by
      nlinarith
    have heq : j.get_flexion
        = ⌊(j.position - j.min_pos) / (j.max_pos - j.min_pos) * 100⌋ := by
      rw [Joint.get_flexion, Joint.int_trunc, if_neg (not_lt.mpr h0')]
    refine ⟨?_, ?_, heq⟩
    · rw [heq]
      exact Int.floor_nonneg.mpr h0'
    · rw [heq]
      calc ⌊(j.position - j.min_pos) / (j.max_pos - j.min_pos) * 100⌋
          ≤ ⌊(100 : ℚ)⌋ := Int.floor_mono h100
        _ = 100 := by norm_num

/-- Witness for C8 (amended) at the middle-finger joint. -/
theorem get_flexion_spec_witness :
    Hand.init.middle.min_pos < Hand.init.middle.max_pos ∧
    ({ Hand.init.middle with position := Hand.init.middle.min_pos } : Joint).get_flexion = 0 ∧
    ({ Hand.init.middle with position := Hand.init.middle.max_pos } : Joint).get_flexion = 100 ∧
    ({ Hand.init.middle with position := 35 } : Joint).get_flexion
      ≤ ({ Hand.init.middle with position := 70 } : Joint).get_flexion :=
  ⟨by decide, (get_flexion_spec Hand.init.middle (by decide)).1,
   (get_flexion_spec Hand.init.middle (by decide)).2.1,
   (get_flexion_spec Hand.init.middle (by decide)).2.2.1 35 70 (by decide)⟩

end BluBot

namespace BluBot

/-! ### Final-target helpers for gesture claims -/

theorem finalTarget_drained_eq (j : Joint) : j.drained.finalTarget = j.finalTarget := rfl

theorem open_finger_finalTarget_eq {j : Joint} {lo hi : ℚ} (h1 : j.min_pos = lo)
    (h2 : j.max_pos = hi) (hle : lo ≤ hi) : (Hand.open_finger j).finalTarget = lo := by
  rw [Hand.open_finger_finalTarget (by rw [h1, h2]; exact hle)]
  exact h1

theorem close_finger_finalTarget_eq {j : Joint} {lo hi : ℚ} (h1 : j.min_pos = lo)
    (h2 : j.max_pos = hi) (hle : lo ≤ hi) : (Hand.close_finger j).finalTarget = hi := by
  rw [Hand.close_finger_finalTarget (by rw [h1, h2]; exact hle)]
  exact h2

theorem set_angle_finalTarget_eq {j : Joint} {lo hi a : ℚ} (h1 : j.min_pos = lo)
    (h2 : j.max_pos = hi) (hla : lo ≤ a) (hah : a ≤ hi) :
    (j.set_servo_angle a).finalTarget = a := by
  rw [Joint.set_servo_angle_finalTarget,
    Joint.clampTarget_of_mem (by rw [h1]; exact hla) (by rw [h2]; exact hah)]

theorem set_angle_getLast_eq {j : Joint} {lo hi a : ℚ} (h1 : j.min_pos = lo)
    (h2 : j.max_pos = hi) (hla : lo ≤ a) (hah : a ≤ hi) :
    (j.set_servo_angle a).intermediate_positions.getLast? = some a := by
  rw [Joint.set_servo_angle_getLast?,
    Joint.clampTarget_of_mem (by rw [h1]; exact hla) (by rw [h2]; exact hah)]

/-! ### Claim C4 -/

/-- C4: in every execution of `make_fist`, the thumb's final close
command (`set_servo_angle 120`) is issued only once the blocking barrier
(`while not self.update(): pass` inside `close_thumb`) has drained every
other finger's pending queue to empty: the final state is the 120° thumb
command applied to a barrier-exit state `hb` whose index, middle, ring
and pinkie (and thumb) queues are all empty. -/
theorem make_fist_thumb_barrier (h : Hand) :
    ∃ hb : Hand,
      h.make_fist = { hb with thumb := hb.thumb.set_servo_angle 120 } ∧
      hb.index.intermediate_positions = [] ∧
      hb.middle.intermediate_positions = [] ∧
      hb.ring.intermediate_positions = [] ∧
      hb.pinkie.intermediate_positions = [] ∧
      hb.thumb.intermediate_positions = [] := by
  refine ⟨({ h with thumb := (h.thumb.set_servo_angle 70).drained, index := Hand.close_finger h.index, middle := Hand.close_finger h.middle, ring := Hand.close_finger h.ring, pinkie := Hand.close_finger h.pinkie } : Hand).settled,
    ?_, rfl, rfl, rfl, rfl, rfl⟩
  simp only [Hand.make_fist, Hand.clear_thumb, Joint.drain_eq_drained,
    Hand.close_thumb, Hand.wait_ready_eq_settled]

/-! ### Claim C10 -/

/-- C10: in `make_fist` (and `make_metal`) the thumb's final enqueued
target angle is the fixed value 120 (the last value appended to the
thumb's queue is exactly 120, since 120 lies within the thumb's
calibration `[10, 150]` and is not clamped), which is strictly below the
thumb's calibrated `max_pos = 150` — a fist never drives the thumb to
its fully-closed bound. -/
theorem fist_thumb_close_below_max {h : Hand} (hc : h.calibrated) :
    (h.make_fist).thumb.intermediate_positions.getLast? = some 120 ∧
    (h.make_metal).thumb.intermediate_positions.getLast? = some 120 ∧
    (h.make_fist).thumb.max_pos = 150 ∧
    ((120 : ℚ) < 150) := by
  obtain ⟨ht1, ht2, hrest⟩ := hc
  have keyf : h.make_fist =
      { ({ h with thumb := (h.thumb.set_servo_angle 70).drained, index := Hand.close_finger h.index, middle := Hand.close_finger h.middle, ring := Hand.close_finger h.ring, pinkie := Hand.close_finger h.pinkie } : Hand).settled with
        thumb := (({ h with thumb := (h.thumb.set_servo_angle 70).drained, index := Hand.close_finger h.index, middle := Hand.close_finger h.middle, ring := Hand.close_finger h.ring, pinkie := Hand.close_finger h.pinkie } : Hand).settled).thumb.set_servo_angle 120 } := by
    simp only [Hand.make_fist, Hand.clear_thumb, Joint.drain_eq_drained,
      Hand.close_thumb, Hand.wait_ready_eq_settled]
  have keym : h.make_metal =
      { ({ h with thumb := (h.thumb.set_servo_angle 70).drained, index := Hand.open_finger h.index, middle := Hand.close_finger h.middle, ring := Hand.close_finger h.ring, pinkie := Hand.open_finger h.pinkie } : Hand).settled with
        thumb := (({ h with thumb := (h.thumb.set_servo_angle 70).drained, index := Hand.open_finger h.index, middle := Hand.close_finger h.middle, ring := Hand.close_finger h.ring, pinkie := Hand.open_finger h.pinkie } : Hand).settled).thumb.set_servo_angle 120 } := by
    simp only [Hand.make_metal, Hand.clear_thumb, Joint.drain_eq_drained,
      Hand.close_thumb, Hand.wait_ready_eq_settled]
  refine ⟨?_, ?_, ?_, by norm_num⟩
  · rw [keyf]
    exact set_angle_getLast_eq ht1 ht2 (by norm_num) (by norm_num)
  · rw [keym]
    exact set_angle_getLast_eq ht1 ht2 (by norm_num) (by norm_num)
  · rw [keyf]
    exact ht2

/-- Witness for C10 at the freshly constructed hand. -/
theorem fist_thumb_close_below_max_witness :
    Hand.init.calibrated ∧
    (Hand.init.make_fist).thumb.intermediate_positions.getLast? = some 120 :=
  ⟨by decide, (fist_thumb_close_below_max (h := Hand.init) (by decide)).1⟩

end BluBot

namespace BluBot

/-! ### Claim C5 -/

/-- The actual final targets of `display_binary(5)` (binary `00101`) on a
calibrated hand: `display_binary` first opens the palm, drains all five
fingers, then — with the `fingers` list reversed so the pinkie is bit 0
and the thumb is bit 4 — commands pinkie open (10 = pinkie `min_pos`),
ring closed (130), middle open (0), index closed (130) and the thumb
closed (150 = thumb `max_pos`, since bit 4 of 5 is 0). -/
theorem display_binary_five_targets {h : Hand} (hc : h.calibrated) :
    (h.display_binary 5).pinkie.finalTarget = 10 ∧
    (h.display_binary 5).ring.finalTarget = 130 ∧
    (h.display_binary 5).middle.finalTarget = 0 ∧
    (h.display_binary 5).index.finalTarget = 130 ∧
    (h.display_binary 5).thumb.finalTarget = 150 := by
  obtain ⟨ht1, ht2, hi1, hi2, hm1, hm2, hr1, hr2, hp1, hp2⟩ := hc
  have key : h.display_binary 5 =
      { (h.make_palm).settled with
          thumb := Hand.close_finger (h.make_palm).settled.thumb,
          index := Hand.close_finger (h.make_palm).settled.index,
          middle := Hand.open_finger (h.make_palm).settled.middle,
          ring := Hand.close_finger (h.make_palm).settled.ring,
          pinkie := Hand.open_finger (h.make_palm).settled.pinkie } := by
    simp only [Hand.display_binary, Hand.wait_ready_eq_settled]
    rfl
  rw [key]
  exact ⟨open_finger_finalTarget_eq hp1 hp2 (by norm_num),
    close_finger_finalTarget_eq hr1 hr2 (by norm_num),
    open_finger_finalTarget_eq hm1 hm2 (by norm_num),
    close_finger_finalTarget_eq hi1 hi2 (by norm_num),
    close_finger_finalTarget_eq ht1 ht2 (by norm_num)⟩

/-- C5 counterexample: the claim says the thumb is unaffected by
`display_binary(5)`.  In fact `display_binary` reverses the whole
five-element `fingers` list (thumb included), so the thumb carries bit 4
of the pattern: for `n = 5` (bit 4 = 0) the thumb is first opened by the
initial `make_palm` and then commanded closed to its bound 150 — its
state changes. -/
theorem display_binary_five_thumb_cex :
    (Hand.init.display_binary 5).thumb.finalTarget = 150 ∧
    Hand.init.thumb.finalTarget = 0 ∧
    (Hand.init.display_binary 5).thumb ≠ Hand.init.thumb := by
  have h150 := (display_binary_five_targets (h := Hand.init) (by decide)).2.2.2.2
  refine ⟨h150, rfl, ?_⟩
  intro heq
  rw [heq] at h150
  have h0 : Hand.init.thumb.finalTarget = 0 := rfl
  rw [h0] at h150
  norm_num at h150

/-- C5 (amended): `display_binary(5)` ends with final targets pinkie
open (its `min_pos` 10), ring closed (130), middle open (0), index
closed (130) — and the thumb, which serves as bit 4 of the five-bit
pattern, closed to its `max_pos` 150 for `n = 5`, rather than being
unaffected by the call. -/
theorem display_binary_five_pattern {h : Hand} (hc : h.calibrated) :
    (h.display_binary 5).pinkie.finalTarget = 10 ∧
    (h.display_binary 5).ring.finalTarget = 130 ∧
    (h.display_binary 5).middle.finalTarget = 0 ∧
    (h.display_binary 5).index.finalTarget = 130 ∧
    (h.display_binary 5).thumb.finalTarget = 150 :=
  display_binary_five_targets hc

/-- Witness for C5 (amended) at the freshly constructed hand. -/
theorem display_binary_five_pattern_witness :
    Hand.init.calibrated ∧
    (Hand.init.display_binary 5).pinkie.finalTarget = 10 ∧
    (Hand.init.display_binary 5).thumb.finalTarget = 150 :=
  ⟨by decide, (display_binary_five_pattern (h := Hand.init) (by decide)).1,
   (display_binary_five_pattern (h := Hand.init) (by decide)).2.2.2.2⟩

end BluBot

namespace BluBot

/-! ### Claim C7 -/

/-- C7: `make_number(3)` on a calibrated hand ends with index, middle
and ring open (at their `min_pos` 20, 0, 10, queues drained by the
`close_thumb` barrier), pinkie closed (at its `max_pos` 120, drained),
and the thumb commanded to its fist-close angle 120 (`close_thumb`,
since `n < 5`).  In general, `make_number(n)` opens the non-thumb finger
at zero-based position `i` (index 0, middle 1, ring 2, pinkie 3) exactly
when `i < n` (the code's `fingers.index(f) <= n` with one-based list
positions) and closes it otherwise, and the thumb's final target is its
`min_pos` 10 (open) exactly when `n ≥ 5`, and the 120° close otherwise. -/
theorem make_number_pattern {h : Hand} (hc : h.calibrated) :
    ((h.make_number 3).index.position = 20 ∧
     (h.make_number 3).index.intermediate_positions = [] ∧
     (h.make_number 3).middle.position = 0 ∧
     (h.make_number 3).middle.intermediate_positions = [] ∧
     (h.make_number 3).ring.position = 10 ∧
     (h.make_number 3).ring.intermediate_positions = [] ∧
     (h.make_number 3).pinkie.position = 120 ∧
     (h.make_number 3).pinkie.intermediate_positions = [] ∧
     (h.make_number 3).thumb.finalTarget = 120) ∧
    (∀ n : ℕ,
      (h.make_number n).index.finalTarget = (if 1 ≤ n then 20 else 130) ∧
      (h.make_number n).middle.finalTarget = (if 2 ≤ n then 0 else 140) ∧
      (h.make_number n).ring.finalTarget = (if 3 ≤ n then 10 else 130) ∧
      (h.make_number n).pinkie.finalTarget = (if 4 ≤ n then 10 else 120) ∧
      (h.make_number n).thumb.finalTarget = (if 5 ≤ n then 10 else 120)) := by
  obtain ⟨ht1, ht2, hi1, hi2, hm1, hm2, hr1, hr2, hp1, hp2⟩ := hc
  have keyn : ∀ n : ℕ, h.make_number n =
      if 5 ≤ n then
        { h with
            thumb := Hand.open_finger ((h.thumb.set_servo_angle 70).drained),
            index := if 1 ≤ n then Hand.open_finger h.index else Hand.close_finger h.index,
            middle := if 2 ≤ n then Hand.open_finger h.middle else Hand.close_finger h.middle,
            ring := if 3 ≤ n then Hand.open_finger h.ring else Hand.close_finger h.ring,
            pinkie := if 4 ≤ n then Hand.open_finger h.pinkie else Hand.close_finger h.pinkie }
      else
        { wrist := h.wrist,
          thumb := (((h.thumb.set_servo_angle 70).drained).drained).set_servo_angle 120,
          index := (if 1 ≤ n then Hand.open_finger h.index else Hand.close_finger h.index).drained,
          middle := (if 2 ≤ n then Hand.open_finger h.middle else Hand.close_finger h.middle).drained,
          ring := (if 3 ≤ n then Hand.open_finger h.ring else Hand.close_finger h.ring).drained,
          pinkie := (if 4 ≤ n then Hand.open_finger h.pinkie else Hand.close_finger h.pinkie).drained } := by
    intro n
    simp only [Hand.make_number, Hand.clear_thumb, Joint.drain_eq_drained,
      Hand.close_thumb, Hand.wait_ready_eq_settled, Hand.settled]
  constructor
  · have k3 := keyn 3
    rw [if_neg (by norm_num)] at k3
    rw [k3]
    exact ⟨open_finger_finalTarget_eq hi1 hi2 (by norm_num), rfl,
      open_finger_finalTarget_eq hm1 hm2 (by norm_num), rfl,
      open_finger_finalTarget_eq hr1 hr2 (by norm_num), rfl,
      close_finger_finalTarget_eq hp1 hp2 (by norm_num), rfl,
      set_angle_finalTarget_eq ht1 ht2 (by norm_num) (by norm_num)⟩
  · intro n
    rw [keyn n]
    by_cases h5 : 5 ≤ n
    · rw [if_pos h5]
      refine ⟨?_, ?_, ?_, ?_, ?_⟩
      · rw [if_pos (by omega : 1 ≤ n), if_pos (by omega : 1 ≤ n)]
        exact open_finger_finalTarget_eq hi1 hi2 (by norm_num)
      · rw [if_pos (by omega : 2 ≤ n), if_pos (by omega : 2 ≤ n)]
        exact open_finger_finalTarget_eq hm1 hm2 (by norm_num)
      · rw [if_pos (by omega : 3 ≤ n), if_pos (by omega : 3 ≤ n)]
        exact open_finger_finalTarget_eq hr1 hr2 (by norm_num)
      · rw [if_pos (by omega : 4 ≤ n), if_pos (by omega : 4 ≤ n)]
        exact open_finger_finalTarget_eq hp1 hp2 (by norm_num)
      · rw [if_pos h5]
        exact open_finger_finalTarget_eq ht1 ht2 (by norm_num)
    · rw [if_neg h5]
      refine ⟨?_, ?_, ?_, ?_, ?_⟩
      · by_cases h1n : 1 ≤ n
        · rw [if_pos h1n, if_pos h1n]
          exact open_finger_finalTarget_eq hi1 hi2 (by norm_num)
        · rw [if_neg h1n, if_neg h1n]
          exact close_finger_finalTarget_eq hi1 hi2 (by norm_num)
      · by_cases h2n : 2 ≤ n
        · rw [if_pos h2n, if_pos h2n]
          exact open_finger_finalTarget_eq hm1 hm2 (by norm_num)
        · rw [if_neg h2n, if_neg h2n]
          exact close_finger_finalTarget_eq hm1 hm2 (by norm_num)
      · by_cases h3n : 3 ≤ n
        · rw [if_pos h3n, if_pos h3n]
          exact open_finger_finalTarget_eq hr1 hr2 (by norm_num)
        · rw [if_neg h3n, if_neg h3n]
          exact close_finger_finalTarget_eq hr1 hr2 (by norm_num)
      · by_cases h4n : 4 ≤ n
        · rw [if_pos h4n, if_pos h4n]
          exact open_finger_finalTarget_eq hp1 hp2 (by norm_num)
        · rw [if_neg h4n, if_neg h4n]
          exact close_finger_finalTarget_eq hp1 hp2 (by norm_num)
      · rw [if_neg h5]
        exact set_angle_finalTarget_eq ht1 ht2 (by norm_num) (by norm_num)

/-- Witness for C7 at the freshly constructed hand: pinkie at 120 after
`make_number 3`, thumb opened to 10 by `make_number 5`. -/
theorem make_number_pattern_witness :
    Hand.init.calibrated ∧
    (Hand.init.make_number 3).pinkie.position = 120 ∧
    (Hand.init.make_number 5).thumb.finalTarget = 10 := by
  refine ⟨by decide, (make_number_pattern (h := Hand.init) (by decide)).1.2.2.2.2.2.2.1, ?_⟩
  have hth := ((make_number_pattern (h := Hand.init) (by decide)).2 5).2.2.2.2
  rw [if_pos (by norm_num)] at hth
  exact hth

end BluBot
